import Mathlib

/-!
# Swathi Nakshatra Tracker — verification of the core model

Shallow embedding of the repository's computational core: the Lahiri
ayanamsha model, the Moon sidereal-longitude model, the band predicate and
the two variants of the period locator (the self-contained variant in
src/unnamed/part_000 and the SunCalc-based variant in
src/unnamed/part_001).

Time instants are modelled as `Int` milliseconds since the Unix epoch
(JavaScript `Date.getTime()`).  The floating-point arithmetic of the source
is modelled over the exact reals (`ℝ`) — rationals (`ℚ`) where the source
formula is purely rational — so the normalization and search logic is
analysed exactly.  The `while` loops of the locator are embedded as
fuel-indexed recursive functions returning `Option` (`none` = the loop has
not finished within the given fuel); a returned `some` value is exactly the
value the source loop produces.  The locators are stated parametrically in
the band-probe function (the composite
`isSwathi (getMoonSiderealLongitude t)` of the source), so every theorem
about them covers the program's instantiation.
-/

namespace SwathiTracker

/-! ## Constants of the data model (both variants) -/

/-- 360 / 27 degrees, the angular span of one nakshatra. -/
noncomputable def NAKSHATRA_SPAN_DEGREES : ℝ := 360 / 27

/-- Lower band boundary: the 15th nakshatra, zero-indexed from 0 degrees. -/
noncomputable def SWATHI_START_DEGREES : ℝ := (15 - 1) * NAKSHATRA_SPAN_DEGREES

/-- Upper band boundary. -/
noncomputable def SWATHI_END_DEGREES : ℝ := 15 * NAKSHATRA_SPAN_DEGREES

/-- Band predicate of both variants:
`longitude >= SWATHI_START_DEGREES && longitude < SWATHI_END_DEGREES`. -/
def isSwathi (longitude : ℝ) : Prop :=
  SWATHI_START_DEGREES ≤ longitude ∧ longitude < SWATHI_END_DEGREES

/-! ## Ayanamsha model (getLahiriAyanamsha, identical in both variants)

The formula is rational in the instant, so it is embedded over `ℚ`
(exactly the real-number value of the float formula's mathematical
content). -/

/-- Epoch J2000: the millisecond timestamp of 2000-01-01T12:00:00Z. -/
def J2000_MS : Int := 946728000000

/-- `getLahiriAyanamsha`:
AYANAMSHA_AT_J2000 + yearsSinceJ2000 * PRECESSION_RATE_DEG_PER_YEAR with
yearsSinceJ2000 = (t - J2000) / (1000 * 60 * 60 * 24 * 365.25). -/
def getLahiriAyanamsha (t : Int) : ℚ :=
  23.85575 + ((t : ℚ) - (J2000_MS : ℚ)) / (1000 * 60 * 60 * 24 * 365.25) * (50.29 / 3600)

/-! ## Lunar longitude model of part_000 (getMoonSiderealLongitude) -/

/-- JavaScript truncation toward zero, as used by the `%` operator. -/
noncomputable def jsTrunc (r : ℝ) : ℝ :=
  if 0 ≤ r then ((⌊r⌋ : ℤ) : ℝ) else -((⌊-r⌋ : ℤ) : ℝ)

/-- JavaScript remainder `x % y` (sign follows the dividend). -/
noncomputable def jsMod (x y : ℝ) : ℝ := x - y * jsTrunc (x / y)

/-- Julian date: `t / 86400000 + 2440587.5`. -/
noncomputable def julianDate (t : Int) : ℝ := (t : ℝ) / 86400000 + 2440587.5

/-- Julian centuries from J2000.0: `(jd - 2451545.0) / 36525`. -/
noncomputable def julianCenturies (t : Int) : ℝ := (julianDate t - 2451545.0) / 36525

/-- Moon's mean longitude L'. -/
noncomputable def moonMeanLongitude (t : Int) : ℝ :=
  let T := julianCenturies t
  218.3164477 + 481267.88123421 * T - 0.0015786 * T * T + T * T * T / 538841
    - T * T * T * T / 65194000

/-- Moon's mean elongation D. -/
noncomputable def moonMeanElongation (t : Int) : ℝ :=
  let T := julianCenturies t
  297.8501921 + 445267.1114034 * T - 0.0018819 * T * T + T * T * T / 545868
    - T * T * T * T / 113065000

/-- Sun's mean anomaly M. -/
noncomputable def sunMeanAnomaly (t : Int) : ℝ :=
  let T := julianCenturies t
  357.5291092 + 35999.0502909 * T - 0.0001536 * T * T + T * T * T / 24490000

/-- Moon's mean anomaly M'. -/
noncomputable def moonMeanAnomaly (t : Int) : ℝ :=
  let T := julianCenturies t
  134.9633964 + 477198.8675055 * T + 0.0087414 * T * T + T * T * T / 69699
    - T * T * T * T / 14712000

/-- Moon's argument of latitude F. -/
noncomputable def moonArgumentOfLatitude (t : Int) : ℝ :=
  let T := julianCenturies t
  93.2720950 + 483202.0175233 * T - 0.0036539 * T * T - T * T * T / 3526000
    + T * T * T * T / 863310000

/-- Degrees to radians. -/
noncomputable def toRad (deg : ℝ) : ℝ := deg * Real.pi / 180

/-- The source's 22 main periodic terms for the Moon's longitude
(micro-degrees). -/
noncomputable def sigmaL (t : Int) : ℝ :=
  let Dr := toRad (moonMeanElongation t)
  let Mr := toRad (sunMeanAnomaly t)
  let Mpr := toRad (moonMeanAnomaly t)
  let Fr := toRad (moonArgumentOfLatitude t)
  6288774 * Real.sin Mpr
    + 1274027 * Real.sin (2 * Dr - Mpr)
    + 658314 * Real.sin (2 * Dr)
    + 213618 * Real.sin (2 * Mpr)
    + (-185116) * Real.sin Mr
    + (-114332) * Real.sin (2 * Fr)
    + 58793 * Real.sin (2 * Dr - 2 * Mpr)
    + 57066 * Real.sin (2 * Dr - Mr - Mpr)
    + 53322 * Real.sin (2 * Dr + Mpr)
    + 45758 * Real.sin (2 * Dr - Mr)
    + (-40923) * Real.sin (Mr - Mpr)
    + (-34720) * Real.sin Dr
    + (-30383) * Real.sin (Mr + Mpr)
    + 15327 * Real.sin (2 * Dr - 2 * Fr)
    + (-12528) * Real.sin (Mpr + 2 * Fr)
    + 10980 * Real.sin (Mpr - 2 * Fr)
    + 10675 * Real.sin (4 * Dr - Mpr)
    + 10034 * Real.sin (3 * Mpr)
    + 8548 * Real.sin (4 * Dr - 2 * Mpr)
    + (-7888) * Real.sin (2 * Dr + Mr - Mpr)
    + (-6766) * Real.sin (2 * Dr + Mr)
    + (-5163) * Real.sin (Dr - Mpr)

/-- The single conditional correction `if (v < 0) v += 360`, used by
part_000 on the tropical longitude after `% 360` and by part_001 on the
sidereal longitude. -/
noncomputable def normPos (v : ℝ) : ℝ := if v < 0 then v + 360 else v

/-- Tropical longitude of part_000: Lp + sigmaL / 1000000, normalized. -/
noncomputable def tropicalLongitude (t : Int) : ℝ :=
  normPos (jsMod (moonMeanLongitude t + sigmaL t / 1000000) 360)

/-- The source's two sequential conditional corrections on the sidereal
longitude: `if (s < 0) s += 360; if (s >= 360) s -= 360`. -/
noncomputable def normDeg (v : ℝ) : ℝ :=
  if v < 0 then
    (if 360 ≤ v + 360 then v + 360 - 360 else v + 360)
  else
    (if 360 ≤ v then v - 360 else v)

/-- Sidereal longitude before the final corrections:
tropical longitude minus the ayanamsha. -/
noncomputable def siderealRaw (t : Int) : ℝ :=
  tropicalLongitude t - ((getLahiriAyanamsha t : ℚ) : ℝ)

/-- `getMoonSiderealLongitude` of part_000. -/
noncomputable def getMoonSiderealLongitude (t : Int) : ℝ :=
  normDeg (siderealRaw t)

/-! ## Period data type and error taxonomy -/

/-- `NakshatraPeriod`: the pair of instants the locators return.  The source
field `end` is a Lean keyword, so it is called `endTime` here. -/
structure NakshatraPeriod where
  start : Int
  endTime : Int
deriving DecidableEq, Repr

/-- The one error part_000's locator can throw:
"Could not find Swathi period within 30 days". -/
inductive SearchError where
  | searchExhausted
deriving DecidableEq, Repr

/-- The one error part_001's core can throw: the SunCalc library is not
loaded (thrown by getLunarSiderealLongitude, propagated by the locator). -/
inductive SunCalcError where
  | sunCalcNotLoaded
deriving DecidableEq, Repr

/-! ## Period locator of part_000 (findCurrentOrNextSwathiPeriod)

The locator only consumes the longitude model through the composite
`isSwathi (getMoonSiderealLongitude date)`; the loops are therefore stated
over an arbitrary band probe `p : Int → Bool`, and the program's locator is
the instantiation `findCurrentOrNextSwathiPeriod` below.  Each `while` loop
of the source becomes one fuel-indexed function. -/

/-- Fine step: 60 * 1000 ms. -/
def fineStep : Int := 60000

/-- Coarse step of part_000: 30 * 60 * 1000 ms. -/
def coarseStep000 : Int := 1800000

/-- Coarse step of part_001: 60 * 60 * 1000 ms. -/
def coarseStep001 : Int := 3600000

/-- Search horizon of part_000's mode-B scan: 30 * 24 * 60 * 60 * 1000 ms. -/
def searchHorizon : Int := 2592000000

/-- Mode A backward coarse scan of part_000:
`while (isSwathi(long(x))) x -= coarseStep` — first out-of-band probe,
stepping down. -/
def coarseBackOut (p : Int → Bool) : Int → Nat → Option Int
  | _, 0 => none
  | x, n + 1 => if p x then coarseBackOut p (x - coarseStep000) n else some x

/-- Forward fine refinement of part_000:
`while (!isSwathi(long(x))) x += fineStep` — first in-band probe, stepping
up. -/
def fineFwdIn (p : Int → Bool) : Int → Nat → Option Int
  | _, 0 => none
  | x, n + 1 => if p x then some x else fineFwdIn p (x + fineStep) n

/-- Forward coarse scan of part_000 (and part_001):
`while (isSwathi(long(x))) x += coarseStep` — first out-of-band probe,
stepping up. -/
def coarseFwdOut (p : Int → Bool) : Int → Nat → Option Int
  | _, 0 => none
  | x, n + 1 => if p x then coarseFwdOut p (x + coarseStep000) n else some x

/-- Backward fine refinement of part_000:
`while (!isSwathi(long(x))) x -= fineStep` — first in-band probe, stepping
down. -/
def fineBackIn (p : Int → Bool) : Int → Nat → Option Int
  | _, 0 => none
  | x, n + 1 => if p x then some x else fineBackIn p (x - fineStep) n

/-- Mode B bounded forward coarse scan of part_000, with origin `o`
(the reference instant):
`while (!isSwathi(long(x))) { x += coarseStep; if (x - o > 30 days) throw }`. -/
def coarseFwdEntry (p : Int → Bool) (o : Int) : Int → Nat →
    Option (Except SearchError Int)
  | _, 0 => none
  | x, n + 1 =>
    if p x then some (Except.ok x)
    else
      if searchHorizon < x + coarseStep000 - o then some (Except.error .searchExhausted)
      else coarseFwdEntry p o (x + coarseStep000) n

/-- Mode B backward fine refinement of part_000 (and part_001):
`while (isSwathi(long(x - fineStep))) x -= fineStep`. -/
def fineBackRefine (p : Int → Bool) : Int → Nat → Option Int
  | _, 0 => none
  | x, n + 1 =>
    if p (x - fineStep) then fineBackRefine p (x - fineStep) n else some x

/-- `findCurrentOrNextSwathiPeriod` of part_000, parametric in the band
probe `p`.  `none` means some loop did not finish within `fuel`
iterations; `some` is exactly the source's result (period or thrown
error). -/
def findCurrentOrNextSwathiPeriod000 (p : Int → Bool) (startDate : Int)
    (fuel : Nat) : Option (Except SearchError NakshatraPeriod) :=
  if p startDate then
    -- Mode A: currently inside the band.
    (coarseBackOut p startDate fuel).bind fun startCoarse =>
    (fineFwdIn p startCoarse fuel).bind fun periodStart =>
    (coarseFwdOut p startDate fuel).bind fun endCoarse =>
    (fineBackIn p endCoarse fuel).bind fun endExit =>
    some (Except.ok ⟨periodStart, endExit + fineStep⟩)
  else
    -- Mode B: find the next period.
    (coarseFwdEntry p startDate startDate fuel).bind fun r =>
    match r with
    | Except.error e => some (Except.error e)
    | Except.ok entry =>
      (fineBackRefine p entry fuel).bind fun periodStart =>
      (coarseFwdOut p periodStart fuel).bind fun endCoarse =>
      (fineBackIn p endCoarse fuel).bind fun endExit =>
      some (Except.ok ⟨periodStart, endExit + fineStep⟩)

/-- The program's band probe: `isSwathi (getMoonSiderealLongitude t)`. -/
noncomputable def swathiProbe (t : Int) : Bool :=
  @decide (isSwathi (getMoonSiderealLongitude t)) (Classical.propDecidable _)

/-- The program's locator of part_000: the parametric locator applied to
the program's probe. -/
noncomputable def findCurrentOrNextSwathiPeriod (startDate : Int) (fuel : Nat) :
    Option (Except SearchError NakshatraPeriod) :=
  findCurrentOrNextSwathiPeriod000 swathiProbe startDate fuel

/-- The locator with the ambient wall clock made explicit: a browser
function could read `Date.now()`, so the embedding threads it as a
parameter; the source body of `findCurrentOrNextSwathiPeriod` never reads
it, which the definition transcribes. -/
def findCurrentOrNextSwathiPeriodAt (p : Int → Bool) (_now : Int)
    (startDate : Int) (fuel : Nat) : Option (Except SearchError NakshatraPeriod) :=
  findCurrentOrNextSwathiPeriod000 p startDate fuel

/-! ## Period locator of part_001

Every probe of part_001 goes through `getLunarSiderealLongitude`, which
throws when the SunCalc library is not loaded; the probe is therefore
`q : Int → Except SunCalcError Bool` and every loop propagates the
exception. -/

/-- Propagate a probe exception through a loop result. -/
def exBind {α : Type} (m : Option (Except SunCalcError Int))
    (k : Int → Option (Except SunCalcError α)) : Option (Except SunCalcError α) :=
  m.bind fun r =>
    match r with
    | Except.error e => some (Except.error e)
    | Except.ok v => k v

/-- part_001 Mode A backward coarse scan:
`while (isSwathi(long(x))) x -= coarseStep`. -/
def coarseBackOut001 (q : Int → Except SunCalcError Bool) : Int → Nat →
    Option (Except SunCalcError Int)
  | _, 0 => none
  | x, n + 1 =>
    match q x with
    | Except.error e => some (Except.error e)
    | Except.ok true => coarseBackOut001 q (x - coarseStep001) n
    | Except.ok false => some (Except.ok x)

/-- part_001 forward fine refinement: `while (!isSwathi(long(x))) x += fineStep`. -/
def fineFwdIn001 (q : Int → Except SunCalcError Bool) : Int → Nat →
    Option (Except SunCalcError Int)
  | _, 0 => none
  | x, n + 1 =>
    match q x with
    | Except.error e => some (Except.error e)
    | Except.ok true => some (Except.ok x)
    | Except.ok false => fineFwdIn001 q (x + fineStep) n

/-- part_001 forward coarse scan: `while (isSwathi(long(x))) x += coarseStep`. -/
def coarseFwdOut001 (q : Int → Except SunCalcError Bool) : Int → Nat →
    Option (Except SunCalcError Int)
  | _, 0 => none
  | x, n + 1 =>
    match q x with
    | Except.error e => some (Except.error e)
    | Except.ok true => coarseFwdOut001 q (x + coarseStep001) n
    | Except.ok false => some (Except.ok x)

/-- part_001 Mode B forward coarse scan — NOTE: unbounded, the source has
no 30-day horizon check: `while (!isSwathi(long(x))) x += coarseStep`. -/
def coarseFwdIn001 (q : Int → Except SunCalcError Bool) : Int → Nat →
    Option (Except SunCalcError Int)
  | _, 0 => none
  | x, n + 1 =>
    match q x with
    | Except.error e => some (Except.error e)
    | Except.ok true => some (Except.ok x)
    | Except.ok false => coarseFwdIn001 q (x + coarseStep001) n

/-- part_001 Mode B backward fine refinement:
`while (isSwathi(long(x - fineStep))) x -= fineStep`. -/
def fineBackRefine001 (q : Int → Except SunCalcError Bool) : Int → Nat →
    Option (Except SunCalcError Int)
  | _, 0 => none
  | x, n + 1 =>
    match q (x - fineStep) with
    | Except.error e => some (Except.error e)
    | Except.ok true => fineBackRefine001 q (x - fineStep) n
    | Except.ok false => some (Except.ok x)

/-- part_001 end "refinement": `while (isSwathi(long(x))) x += fineStep` —
first out-of-band probe, stepping up by the fine step.  (It runs right
after a loop that exits on an out-of-band probe, so it never moves.) -/
def fineFwdWhileTrue001 (q : Int → Except SunCalcError Bool) : Int → Nat →
    Option (Except SunCalcError Int)
  | _, 0 => none
  | x, n + 1 =>
    match q x with
    | Except.error e => some (Except.error e)
    | Except.ok true => fineFwdWhileTrue001 q (x + fineStep) n
    | Except.ok false => some (Except.ok x)

/-- `findCurrentOrNextSwathiPeriod` of part_001, parametric in the
exception-throwing band probe `q`. -/
def findCurrentOrNextSwathiPeriod001 (q : Int → Except SunCalcError Bool)
    (startDate : Int) (fuel : Nat) : Option (Except SunCalcError NakshatraPeriod) :=
  match q startDate with
  | Except.error e => some (Except.error e)
  | Except.ok true =>
    -- Mode A: find the boundaries of the current period.
    exBind (coarseBackOut001 q startDate fuel) fun startCoarse =>
    exBind (fineFwdIn001 q startCoarse fuel) fun periodStart =>
    exBind (coarseFwdOut001 q startDate fuel) fun endCoarse =>
    exBind (fineFwdWhileTrue001 q endCoarse fuel) fun periodEnd =>
    some (Except.ok ⟨periodStart, periodEnd⟩)
  | Except.ok false =>
    -- Mode B: find the start of the next period, then its end.
    exBind (coarseFwdIn001 q startDate fuel) fun entry =>
    exBind (fineBackRefine001 q entry fuel) fun periodStart =>
    exBind (coarseFwdOut001 q periodStart fuel) fun endCoarse =>
    exBind (fineFwdWhileTrue001 q endCoarse fuel) fun periodEnd =>
    some (Except.ok ⟨periodStart, periodEnd⟩)

/-! ## part_001's dependence on the mutable window.SunCalc global

Every part_001 probe evaluates `getLunarSiderealLongitude`, which first
checks `typeof window.SunCalc` and then calls the library's
`getMoonPosition`.  `window.SunCalc` is a mutable global: it is absent
until the external script loads.  The embedding makes that state an
explicit parameter. -/

/-- The state of the mutable global `window.SunCalc`: `none` when the
library is not loaded, `some eclipticLon` when it is — `eclipticLon` being
the library's getMoonPosition ecliptic longitude (radians) at each
instant.  (SunCalc itself is an external script, not part of this
repository.) -/
abbrev SunCalcState := Option (Int → ℝ)

/-- `getLunarSiderealLongitude` of part_001: throws when window.SunCalc is
undefined; otherwise converts the library's radian longitude to degrees
(times 180/pi), subtracts the ayanamsha and applies the single conditional
correction. -/
noncomputable def getLunarSiderealLongitude (env : SunCalcState) (t : Int) :
    Except SunCalcError ℝ :=
  match env with
  | none => Except.error SunCalcError.sunCalcNotLoaded
  | some eclipticLon =>
      Except.ok (normPos (eclipticLon t * (180 / Real.pi)
        - ((getLahiriAyanamsha t : ℚ) : ℝ)))

/-- part_001's band probe under a SunCalc state: the composite
`isSwathi (getLunarSiderealLongitude date)`, propagating the throw. -/
noncomputable def swathiProbe001 (env : SunCalcState) (t : Int) :
    Except SunCalcError Bool :=
  match getLunarSiderealLongitude env t with
  | Except.error e => Except.error e
  | Except.ok l => Except.ok (@decide (isSwathi l) (Classical.propDecidable _))

/-- part_001's locator as the program runs it: a function of the reference
instant and of the state of the mutable window.SunCalc global its probes
read. -/
noncomputable def findCurrentOrNextSwathiPeriod001Env (env : SunCalcState)
    (startDate : Int) (fuel : Nat) : Option (Except SunCalcError NakshatraPeriod) :=
  findCurrentOrNextSwathiPeriod001 (swathiProbe001 env) startDate fuel

/-- part_001's locator with the ambient wall clock made explicit: as in
part_000, the source body never reads it. -/
noncomputable def findCurrentOrNextSwathiPeriod001At (env : SunCalcState)
    (_now : Int) (startDate : Int) (fuel : Nat) :
    Option (Except SunCalcError NakshatraPeriod) :=
  findCurrentOrNextSwathiPeriod001Env env startDate fuel

deriving instance DecidableEq for Except

/-! ## Characterization of the part_000 scans

Each lemma reads a finished loop back: the returned probe, its offset from
the entry instant, and the value of the probe at every instant the loop
stepped over. -/

/-- coarseBackOut stops at the first out-of-band probe on the backward
coarse grid. -/
theorem coarseBackOut_spec (p : Int → Bool) :
    ∀ (fuel : Nat) (x b : Int), coarseBackOut p x fuel = some b →
      p b = false ∧ ∃ J : ℕ, b = x - J * coarseStep000 ∧
        ∀ j : ℕ, j < J → p (x - j * coarseStep000) = true := by
  intro fuel
  induction fuel with
  | zero => intro x b h; simp [coarseBackOut] at h
  | succ n ih =>
    intro x b h
    rw [coarseBackOut] at h
    by_cases hp : p x
    · rw [if_pos hp] at h
      obtain ⟨hb, J, hJ, hall⟩ := ih _ _ h
      refine ⟨hb, J + 1, by push_cast [hJ]; ring, ?_⟩
      intro j hj
      cases j with
      | zero => simpa using hp
      | succ i =>
        have := hall i (by omega)
        have harg : x - (i + 1 : ℕ) * coarseStep000
            = x - coarseStep000 - i * coarseStep000 := by push_cast; ring
        rw [harg]
        exact this
    · rw [if_neg hp] at h
      obtain rfl : x = b := by simpa using h
      exact ⟨by simpa using hp, 0, by simp, by omega⟩

/-- fineFwdIn stops at the first in-band probe on the forward fine grid. -/
theorem fineFwdIn_spec (p : Int → Bool) :
    ∀ (fuel : Nat) (x s : Int), fineFwdIn p x fuel = some s →
      p s = true ∧ ∃ k : ℕ, s = x + k * fineStep ∧
        ∀ j : ℕ, j < k → p (x + j * fineStep) = false := by
  intro fuel
  induction fuel with
  | zero => intro x s h; simp [fineFwdIn] at h
  | succ n ih =>
    intro x s h
    rw [fineFwdIn] at h
    by_cases hp : p x
    · rw [if_pos hp] at h
      obtain rfl : x = s := by simpa using h
      exact ⟨by simpa using hp, 0, by simp, by omega⟩
    · rw [if_neg hp] at h
      obtain ⟨hs, k, hk, hall⟩ := ih _ _ h
      refine ⟨hs, k + 1, by push_cast [hk]; ring, ?_⟩
      intro j hj
      cases j with
      | zero => simpa using hp
      | succ i =>
        have := hall i (by omega)
        have harg : x + (i + 1 : ℕ) * fineStep
            = x + fineStep + i * fineStep := by push_cast; ring
        rw [harg]
        exact this

/-- coarseFwdOut stops at the first out-of-band probe on the forward
coarse grid. -/
theorem coarseFwdOut_spec (p : Int → Bool) :
    ∀ (fuel : Nat) (x e : Int), coarseFwdOut p x fuel = some e →
      p e = false ∧ ∃ m : ℕ, e = x + m * coarseStep000 ∧
        ∀ j : ℕ, j < m → p (x + j * coarseStep000) = true := by
  intro fuel
  induction fuel with
  | zero => intro x e h; simp [coarseFwdOut] at h
  | succ n ih =>
    intro x e h
    rw [coarseFwdOut] at h
    by_cases hp : p x
    · rw [if_pos hp] at h
      obtain ⟨he, m, hm, hall⟩ := ih _ _ h
      refine ⟨he, m + 1, by push_cast [hm]; ring, ?_⟩
      intro j hj
      cases j with
      | zero => simpa using hp
      | succ i =>
        have := hall i (by omega)
        have harg : x + (i + 1 : ℕ) * coarseStep000
            = x + coarseStep000 + i * coarseStep000 := by push_cast; ring
        rw [harg]
        exact this
    · rw [if_neg hp] at h
      obtain rfl : x = e := by simpa using h
      exact ⟨by simpa using hp, 0, by simp, by omega⟩

/-- fineBackIn stops at the first in-band probe on the backward fine grid. -/
theorem fineBackIn_spec (p : Int → Bool) :
    ∀ (fuel : Nat) (x s : Int), fineBackIn p x fuel = some s →
      p s = true ∧ ∃ k : ℕ, s = x - k * fineStep ∧
        ∀ j : ℕ, j < k → p (x - j * fineStep) = false := by
  intro fuel
  induction fuel with
  | zero => intro x s h; simp [fineBackIn] at h
  | succ n ih =>
    intro x s h
    rw [fineBackIn] at h
    by_cases hp : p x
    · rw [if_pos hp] at h
      obtain rfl : x = s := by simpa using h
      exact ⟨by simpa using hp, 0, by simp, by omega⟩
    · rw [if_neg hp] at h
      obtain ⟨hs, k, hk, hall⟩ := ih _ _ h
      refine ⟨hs, k + 1, by push_cast [hk]; ring, ?_⟩
      intro j hj
      cases j with
      | zero => simpa using hp
      | succ i =>
        have := hall i (by omega)
        have harg : x - (i + 1 : ℕ) * fineStep
            = x - fineStep - i * fineStep := by push_cast; ring
        rw [harg]
        exact this

/-- fineBackRefine stops at the first probe whose fine predecessor is out
of band; every probe it stepped onto along the way is in band. -/
theorem fineBackRefine_spec (p : Int → Bool) :
    ∀ (fuel : Nat) (x s : Int), fineBackRefine p x fuel = some s →
      p (s - fineStep) = false ∧ ∃ k : ℕ, s = x - k * fineStep ∧
        ∀ j : ℕ, j < k → p (x - (j + 1) * fineStep) = true := by
  intro fuel
  induction fuel with
  | zero => intro x s h; simp [fineBackRefine] at h
  | succ n ih =>
    intro x s h
    rw [fineBackRefine] at h
    by_cases hp : p (x - fineStep)
    · rw [if_pos hp] at h
      obtain ⟨hs, k, hk, hall⟩ := ih _ _ h
      refine ⟨hs, k + 1, by push_cast [hk]; ring, ?_⟩
      intro j hj
      cases j with
      | zero => simpa using hp
      | succ i =>
        have := hall i (by omega)
        convert this using 2
        push_cast
        ring
    · rw [if_neg hp] at h
      obtain rfl : x = s := by simpa using h
      exact ⟨by simpa using hp, 0, by simp, by omega⟩

/-- The in-band invariant of fineBackRefine: entered on an in-band probe,
it returns an in-band probe. -/
theorem fineBackRefine_inv (p : Int → Bool) (fuel : Nat) (x s : Int)
    (hx : p x = true) (h : fineBackRefine p x fuel = some s) : p s = true := by
  obtain ⟨-, k, hk, hall⟩ := fineBackRefine_spec p fuel x s h
  cases k with
  | zero => simpa [hk] using hx
  | succ i =>
    have := hall i (by omega)
    simpa [hk] using this

/-- coarseFwdEntry, successful exit: the first in-band probe on the
forward coarse grid. -/
theorem coarseFwdEntry_spec_ok (p : Int → Bool) (o : Int) :
    ∀ (fuel : Nat) (x s : Int), coarseFwdEntry p o x fuel = some (Except.ok s) →
      p s = true ∧ ∃ J : ℕ, s = x + J * coarseStep000 ∧
        ∀ j : ℕ, j < J → p (x + j * coarseStep000) = false := by
  intro fuel
  induction fuel with
  | zero => intro x s h; simp [coarseFwdEntry] at h
  | succ n ih =>
    intro x s h
    rw [coarseFwdEntry] at h
    by_cases hp : p x
    · rw [if_pos hp] at h
      obtain rfl : x = s := by simpa using h
      exact ⟨by simpa using hp, 0, by simp, by omega⟩
    · rw [if_neg hp] at h
      by_cases hh : searchHorizon < x + coarseStep000 - o
      · rw [if_pos hh] at h
        simp at h
      · rw [if_neg hh] at h
        obtain ⟨hs, J, hJ, hall⟩ := ih _ _ h
        refine ⟨hs, J + 1, by push_cast [hJ]; ring, ?_⟩
        intro j hj
        cases j with
        | zero => simpa using hp
        | succ i =>
          have := hall i (by omega)
          have harg : x + (i + 1 : ℕ) * coarseStep000
              = x + coarseStep000 + i * coarseStep000 := by push_cast; ring
          rw [harg]
          exact this

/-- fineFwdIn never moves past an in-band instant on its grid. -/
theorem fineFwdIn_le (p : Int → Bool) (fuel : Nat) (x s y : Int)
    (h : fineFwdIn p x fuel = some s) (hy : p y = true)
    (hal : ∃ k : ℕ, y = x + k * fineStep) : s ≤ y := by
  obtain ⟨-, ks, hks, hall⟩ := fineFwdIn_spec p fuel x s h
  obtain ⟨ky, hky⟩ := hal
  by_contra hlt
  have hk : ky < ks := by
    simp only [fineStep] at hks hky
    omega
  have := hall ky hk
  rw [← hky] at this
  simp [hy] at this

/-- fineBackIn never moves below an in-band instant on its grid. -/
theorem fineBackIn_ge (p : Int → Bool) (fuel : Nat) (x s y : Int)
    (h : fineBackIn p x fuel = some s) (hy : p y = true)
    (hal : ∃ k : ℕ, x = y + k * fineStep) : y ≤ s := by
  obtain ⟨-, ks, hks, hall⟩ := fineBackIn_spec p fuel x s h
  obtain ⟨ky, hky⟩ := hal
  by_contra hlt
  have hk : ky < ks := by
    simp only [fineStep] at hks hky
    omega
  have := hall ky hk
  have harg : x - ky * fineStep = y + (ky : Int) * fineStep - ky * fineStep := by
    rw [← hky]
  rw [harg] at this
  simp at this
  simp [hy] at this

/-- fineBackRefine never steps onto or below an out-of-band instant on its
grid: the result stays strictly above it. -/
theorem fineBackRefine_ge (p : Int → Bool) (fuel : Nat) (x s b : Int)
    (h : fineBackRefine p x fuel = some s) (hb : p b = false)
    (hal : ∃ k : ℕ, x = b + k * fineStep ∧ 1 ≤ k) : b + fineStep ≤ s := by
  obtain ⟨-, ks, hks, hall⟩ := fineBackRefine_spec p fuel x s h
  obtain ⟨k, hk, hk1⟩ := hal
  by_contra hlt
  have hkk : k - 1 < ks ∧ k ≤ ks := by
    simp only [fineStep] at hks hk hlt
    omega
  have := hall (k - 1) hkk.1
  have harg : x - ((k - 1 : ℕ) + 1 : Int) * fineStep = b := by
    have : ((k - 1 : ℕ) : Int) = (k : Int) - 1 := by omega
    rw [this, hk]
    ring
  rw [harg] at this
  simp [hb] at this

/-- The horizon arithmetic of the mode-B scan: with a 30-minute coarse
step, the scan throws right after probing the 1440th step (30 days), so an
error means every probe up to index 1440 was out of band. -/
theorem coarseFwdEntry_err (p : Int → Bool) (o : Int) :
    ∀ (fuel : Nat) (a : ℕ) (e : SearchError), a ≤ 1440 →
      coarseFwdEntry p o (o + a * coarseStep000) fuel = some (Except.error e) →
      ∀ j : ℕ, a ≤ j → j ≤ 1440 → p (o + j * coarseStep000) = false := by
  intro fuel
  induction fuel with
  | zero => intro a e _ h; simp [coarseFwdEntry] at h
  | succ n ih =>
    intro a e ha h
    rw [coarseFwdEntry] at h
    by_cases hp : p (o + a * coarseStep000)
    · rw [if_pos hp] at h
      simp at h
    · rw [if_neg hp] at h
      by_cases hh : searchHorizon < o + a * coarseStep000 + coarseStep000 - o
      · have ha1440 : a = 1440 := by
          simp only [searchHorizon, coarseStep000] at hh
          omega
        intro j haj hj1440
        have : j = a := by omega
        rw [this]
        simpa using hp
      · rw [if_neg hh] at h
        have harg : o + a * coarseStep000 + coarseStep000
            = o + ((a + 1 : ℕ) : Int) * coarseStep000 := by push_cast; ring
        rw [harg] at h
        have ha1 : a + 1 ≤ 1440 := by
          simp only [searchHorizon, coarseStep000] at hh
          omega
        have hrest := ih (a + 1) e ha1 h
        intro j haj hj1440
        rcases Nat.eq_or_lt_of_le haj with rfl | hlt
        · simpa using hp
        · exact hrest j hlt hj1440

/-- Converse horizon arithmetic: if every probe up to index 1440 is out of
band, the mode-B scan can only finish by throwing the exhaustion error. -/
theorem coarseFwdEntry_err_conv (p : Int → Bool) (o : Int) :
    ∀ (fuel : Nat) (a : ℕ) (r : Except SearchError Int), a ≤ 1440 →
      (∀ j : ℕ, a ≤ j → j ≤ 1440 → p (o + j * coarseStep000) = false) →
      coarseFwdEntry p o (o + a * coarseStep000) fuel = some r →
      r = Except.error SearchError.searchExhausted := by
  intro fuel
  induction fuel with
  | zero => intro a r _ _ h; simp [coarseFwdEntry] at h
  | succ n ih =>
    intro a r ha hall h
    rw [coarseFwdEntry] at h
    have hp : p (o + a * coarseStep000) = false := hall a le_rfl ha
    rw [if_neg (by simp [hp])] at h
    by_cases hh : searchHorizon < o + a * coarseStep000 + coarseStep000 - o
    · rw [if_pos hh] at h
      simpa using h.symm
    · rw [if_neg hh] at h
      have harg : o + a * coarseStep000 + coarseStep000
          = o + ((a + 1 : ℕ) : Int) * coarseStep000 := by push_cast; ring
      rw [harg] at h
      have ha1 : a + 1 ≤ 1440 := by
        simp only [searchHorizon, coarseStep000] at hh
        omega
      exact ih (a + 1) r ha1 (fun j h1 h2 => hall j (by omega) h2) h

/-! ## Decomposition of part_000 locator runs -/

/-- A successful part_000 locate run decomposes into its four scans, in
mode A or mode B. -/
theorem locate000_ok_elim (p : Int → Bool) (ref : Int) (fuel : Nat)
    (per : NakshatraPeriod)
    (h : findCurrentOrNextSwathiPeriod000 p ref fuel = some (Except.ok per)) :
    (p ref = true ∧ ∃ b s e x, coarseBackOut p ref fuel = some b ∧
      fineFwdIn p b fuel = some s ∧ coarseFwdOut p ref fuel = some e ∧
      fineBackIn p e fuel = some x ∧ per = ⟨s, x + fineStep⟩) ∨
    (p ref = false ∧ ∃ entry s e x,
      coarseFwdEntry p ref ref fuel = some (Except.ok entry) ∧
      fineBackRefine p entry fuel = some s ∧ coarseFwdOut p s fuel = some e ∧
      fineBackIn p e fuel = some x ∧ per = ⟨s, x + fineStep⟩) := by
  rw [findCurrentOrNextSwathiPeriod000] at h
  by_cases hp : p ref
  · rw [if_pos hp] at h
    left
    refine ⟨hp, ?_⟩
    rw [Option.bind_eq_some] at h
    obtain ⟨b, hb, h⟩ := h
    rw [Option.bind_eq_some] at h
    obtain ⟨s, hs, h⟩ := h
    rw [Option.bind_eq_some] at h
    obtain ⟨e, he, h⟩ := h
    rw [Option.bind_eq_some] at h
    obtain ⟨x, hx, h⟩ := h
    simp only [Option.some.injEq, Except.ok.injEq] at h
    exact ⟨b, s, e, x, hb, hs, he, hx, h.symm⟩
  · rw [if_neg hp] at h
    right
    refine ⟨by simpa using hp, ?_⟩
    rw [Option.bind_eq_some] at h
    obtain ⟨r, hr, h⟩ := h
    cases r with
    | error e => simp at h
    | ok entry =>
      rw [Option.bind_eq_some] at h
      obtain ⟨s, hs, h⟩ := h
      rw [Option.bind_eq_some] at h
      obtain ⟨e, he, h⟩ := h
      rw [Option.bind_eq_some] at h
      obtain ⟨x, hx, h⟩ := h
      simp only [Option.some.injEq, Except.ok.injEq] at h
      exact ⟨entry, s, e, x, hr, hs, he, hx, h.symm⟩

/-- An erroring part_000 locate run comes from the mode-B entry scan. -/
theorem locate000_err_elim (p : Int → Bool) (ref : Int) (fuel : Nat)
    (e : SearchError)
    (h : findCurrentOrNextSwathiPeriod000 p ref fuel = some (Except.error e)) :
    p ref = false ∧ coarseFwdEntry p ref ref fuel = some (Except.error e) := by
  rw [findCurrentOrNextSwathiPeriod000] at h
  by_cases hp : p ref
  · rw [if_pos hp] at h
    rw [Option.bind_eq_some] at h
    obtain ⟨b, hb, h⟩ := h
    rw [Option.bind_eq_some] at h
    obtain ⟨s, hs, h⟩ := h
    rw [Option.bind_eq_some] at h
    obtain ⟨e', he, h⟩ := h
    rw [Option.bind_eq_some] at h
    obtain ⟨x, hx, h⟩ := h
    simp at h
  · rw [if_neg hp] at h
    refine ⟨by simpa using hp, ?_⟩
    rw [Option.bind_eq_some] at h
    obtain ⟨r, hr, h⟩ := h
    cases r with
    | error e' =>
      cases e
      cases e'
      exact hr
    | ok entry =>
      rw [Option.bind_eq_some] at h
      obtain ⟨s, hs, h⟩ := h
      rw [Option.bind_eq_some] at h
      obtain ⟨e', he, h⟩ := h
      rw [Option.bind_eq_some] at h
      obtain ⟨x, hx, h⟩ := h
      simp at h

/-! ## Behavior of a successful part_000 run -/

/-- The boundary facts of the end-finding pair of scans of part_000: the
probe one fine step before the returned end is in band, the probe at the
returned end is out of band. -/
theorem endScan000_boundary (p : Int → Bool) (fuel : Nat) (z e x : Int)
    (he : coarseFwdOut p z fuel = some e) (hx : fineBackIn p e fuel = some x) :
    p x = true ∧ p (x + fineStep) = false := by
  obtain ⟨hef, -, -, -⟩ := coarseFwdOut_spec p fuel z e he
  obtain ⟨hxt, k, hk, hall⟩ := fineBackIn_spec p fuel e x hx
  refine ⟨hxt, ?_⟩
  have hk1 : 1 ≤ k := by
    rcases Nat.eq_zero_or_pos k with rfl | h1
    · rw [hk] at hxt
      simp at hxt
      rw [hxt] at hef
      simp at hef
    · exact h1
  have := hall (k - 1) (by omega)
  have harg : e - ((k - 1 : ℕ) : Int) * fineStep = x + fineStep := by
    have hcast : ((k - 1 : ℕ) : Int) = (k : Int) - 1 := by omega
    rw [hcast, hk]
    ring
  rw [harg] at this
  exact this

/-! ## Characterization of the part_001 scans (successful probes) -/

/-- Unfolding of exBind on a successful result. -/
theorem exBind_ok {α : Type} (m : Option (Except SunCalcError Int))
    (k : Int → Option (Except SunCalcError α)) (a : α)
    (h : exBind m k = some (Except.ok a)) :
    ∃ v, m = some (Except.ok v) ∧ k v = some (Except.ok a) := by
  rw [exBind, Option.bind_eq_some] at h
  obtain ⟨r, hr, h⟩ := h
  cases r with
  | error e => simp at h
  | ok v => exact ⟨v, hr, h⟩

/-- coarseBackOut001 stops at the first out-of-band probe going down. -/
theorem coarseBackOut001_spec (q : Int → Except SunCalcError Bool) :
    ∀ (fuel : Nat) (x b : Int), coarseBackOut001 q x fuel = some (Except.ok b) →
      q b = Except.ok false ∧ ∃ J : ℕ, b = x - J * coarseStep001 ∧
        ∀ j : ℕ, j < J → q (x - j * coarseStep001) = Except.ok true := by
  intro fuel
  induction fuel with
  | zero => intro x b h; simp [coarseBackOut001] at h
  | succ n ih =>
    intro x b h
    rw [coarseBackOut001] at h
    cases hq : q x with
    | error e => rw [hq] at h; simp at h
    | ok v =>
      rw [hq] at h
      cases v with
      | true =>
        obtain ⟨hb, J, hJ, hall⟩ := ih _ _ h
        refine ⟨hb, J + 1, by push_cast [hJ]; ring, ?_⟩
        intro j hj
        cases j with
        | zero => simpa using hq
        | succ i =>
          have := hall i (by omega)
          convert this using 2
          push_cast
          ring
      | false =>
        obtain rfl : x = b := by simpa using h
        exact ⟨hq, 0, by simp, by omega⟩

/-- fineFwdIn001 stops at the first in-band probe going up. -/
theorem fineFwdIn001_spec (q : Int → Except SunCalcError Bool) :
    ∀ (fuel : Nat) (x s : Int), fineFwdIn001 q x fuel = some (Except.ok s) →
      q s = Except.ok true ∧ ∃ k : ℕ, s = x + k * fineStep ∧
        ∀ j : ℕ, j < k → q (x + j * fineStep) = Except.ok false := by
  intro fuel
  induction fuel with
  | zero => intro x s h; simp [fineFwdIn001] at h
  | succ n ih =>
    intro x s h
    rw [fineFwdIn001] at h
    cases hq : q x with
    | error e => rw [hq] at h; simp at h
    | ok v =>
      rw [hq] at h
      cases v with
      | true =>
        obtain rfl : x = s := by simpa using h
        exact ⟨hq, 0, by simp, by omega⟩
      | false =>
        obtain ⟨hs, k, hk, hall⟩ := ih _ _ h
        refine ⟨hs, k + 1, by push_cast [hk]; ring, ?_⟩
        intro j hj
        cases j with
        | zero => simpa using hq
        | succ i =>
          have := hall i (by omega)
          convert this using 2
          push_cast
          ring

/-- coarseFwdOut001 stops at the first out-of-band probe going up. -/
theorem coarseFwdOut001_spec (q : Int → Except SunCalcError Bool) :
    ∀ (fuel : Nat) (x e : Int), coarseFwdOut001 q x fuel = some (Except.ok e) →
      q e = Except.ok false ∧ ∃ m : ℕ, e = x + m * coarseStep001 ∧
        ∀ j : ℕ, j < m → q (x + j * coarseStep001) = Except.ok true := by
  intro fuel
  induction fuel with
  | zero => intro x e h; simp [coarseFwdOut001] at h
  | succ n ih =>
    intro x e h
    rw [coarseFwdOut001] at h
    cases hq : q x with
    | error er => rw [hq] at h; simp at h
    | ok v =>
      rw [hq] at h
      cases v with
      | true =>
        obtain ⟨he, m, hm, hall⟩ := ih _ _ h
        refine ⟨he, m + 1, by push_cast [hm]; ring, ?_⟩
        intro j hj
        cases j with
        | zero => simpa using hq
        | succ i =>
          have := hall i (by omega)
          convert this using 2
          push_cast
          ring
      | false =>
        obtain rfl : x = e := by simpa using h
        exact ⟨hq, 0, by simp, by omega⟩

/-- coarseFwdIn001 (the unbounded mode-B scan) returns an in-band probe. -/
theorem coarseFwdIn001_ok (q : Int → Except SunCalcError Bool) :
    ∀ (fuel : Nat) (x s : Int), coarseFwdIn001 q x fuel = some (Except.ok s) →
      q s = Except.ok true := by
  intro fuel
  induction fuel with
  | zero => intro x s h; simp [coarseFwdIn001] at h
  | succ n ih =>
    intro x s h
    rw [coarseFwdIn001] at h
    cases hq : q x with
    | error e => rw [hq] at h; simp at h
    | ok v =>
      rw [hq] at h
      cases v with
      | true =>
        obtain rfl : x = s := by simpa using h
        exact hq
      | false => exact ih _ _ h

/-- fineBackRefine001 stops at the first probe whose fine predecessor is
out of band; every probe it stepped onto is in band. -/
theorem fineBackRefine001_spec (q : Int → Except SunCalcError Bool) :
    ∀ (fuel : Nat) (x s : Int), fineBackRefine001 q x fuel = some (Except.ok s) →
      q (s - fineStep) = Except.ok false ∧ ∃ k : ℕ, s = x - k * fineStep ∧
        ∀ j : ℕ, j < k → q (x - (j + 1) * fineStep) = Except.ok true := by
  intro fuel
  induction fuel with
  | zero => intro x s h; simp [fineBackRefine001] at h
  | succ n ih =>
    intro x s h
    rw [fineBackRefine001] at h
    cases hq : q (x - fineStep) with
    | error e => rw [hq] at h; simp at h
    | ok v =>
      rw [hq] at h
      cases v with
      | true =>
        obtain ⟨hs, k, hk, hall⟩ := ih _ _ h
        refine ⟨hs, k + 1, by push_cast [hk]; ring, ?_⟩
        intro j hj
        cases j with
        | zero => simpa using hq
        | succ i =>
          have := hall i (by omega)
          convert this using 2
          push_cast
          ring
      | false =>
        obtain rfl : x = s := by simpa using h
        exact ⟨hq, 0, by simp, by omega⟩

/-- The in-band invariant of fineBackRefine001. -/
theorem fineBackRefine001_inv (q : Int → Except SunCalcError Bool) (fuel : Nat)
    (x s : Int) (hx : q x = Except.ok true)
    (h : fineBackRefine001 q x fuel = some (Except.ok s)) :
    q s = Except.ok true := by
  obtain ⟨-, k, hk, hall⟩ := fineBackRefine001_spec q fuel x s h
  cases k with
  | zero => simpa [hk] using hx
  | succ i =>
    have := hall i (by omega)
    simpa [hk] using this

/-- fineFwdWhileTrue001 stops at the first out-of-band probe going up; in
particular it does not move when entered on an out-of-band probe. -/
theorem fineFwdWhileTrue001_spec (q : Int → Except SunCalcError Bool) :
    ∀ (fuel : Nat) (x r : Int), fineFwdWhileTrue001 q x fuel = some (Except.ok r) →
      q r = Except.ok false ∧ ∃ k : ℕ, r = x + k * fineStep ∧
        ∀ j : ℕ, j < k → q (x + j * fineStep) = Except.ok true := by
  intro fuel
  induction fuel with
  | zero => intro x r h; simp [fineFwdWhileTrue001] at h
  | succ n ih =>
    intro x r h
    rw [fineFwdWhileTrue001] at h
    cases hq : q x with
    | error e => rw [hq] at h; simp at h
    | ok v =>
      rw [hq] at h
      cases v with
      | true =>
        obtain ⟨hr, k, hk, hall⟩ := ih _ _ h
        refine ⟨hr, k + 1, by push_cast [hk]; ring, ?_⟩
        intro j hj
        cases j with
        | zero => simpa using hq
        | succ i =>
          have := hall i (by omega)
          convert this using 2
          push_cast
          ring
      | false =>
        obtain rfl : x = r := by simpa using h
        exact ⟨hq, 0, by simp, by omega⟩

/-- fineFwdWhileTrue001 entered on an out-of-band probe returns it
unchanged. -/
theorem fineFwdWhileTrue001_stay (q : Int → Except SunCalcError Bool)
    (fuel : Nat) (x r : Int) (hx : q x = Except.ok false)
    (h : fineFwdWhileTrue001 q x fuel = some (Except.ok r)) : r = x := by
  obtain ⟨-, k, hk, hall⟩ := fineFwdWhileTrue001_spec q fuel x r h
  cases k with
  | zero => simpa using hk
  | succ i =>
    have := hall 0 (by omega)
    simp [hx] at this

/-- fineFwdIn001 never moves past an in-band instant on its grid. -/
theorem fineFwdIn001_le (q : Int → Except SunCalcError Bool) (fuel : Nat)
    (x s y : Int) (h : fineFwdIn001 q x fuel = some (Except.ok s))
    (hy : q y = Except.ok true) (hal : ∃ k : ℕ, y = x + k * fineStep) :
    s ≤ y := by
  obtain ⟨-, ks, hks, hall⟩ := fineFwdIn001_spec q fuel x s h
  obtain ⟨ky, hky⟩ := hal
  by_contra hlt
  have hk : ky < ks := by
    simp only [fineStep] at hks hky
    omega
  have := hall ky hk
  rw [← hky] at this
  rw [hy] at this
  simp at this

/-- A successful part_001 locate run decomposes into its four scans, in
mode A or mode B. -/
theorem locate001_ok_elim (q : Int → Except SunCalcError Bool) (ref : Int)
    (fuel : Nat) (per : NakshatraPeriod)
    (h : findCurrentOrNextSwathiPeriod001 q ref fuel = some (Except.ok per)) :
    (q ref = Except.ok true ∧ ∃ b s e r,
      coarseBackOut001 q ref fuel = some (Except.ok b) ∧
      fineFwdIn001 q b fuel = some (Except.ok s) ∧
      coarseFwdOut001 q ref fuel = some (Except.ok e) ∧
      fineFwdWhileTrue001 q e fuel = some (Except.ok r) ∧ per = ⟨s, r⟩) ∨
    (q ref = Except.ok false ∧ ∃ entry s e r,
      coarseFwdIn001 q ref fuel = some (Except.ok entry) ∧
      fineBackRefine001 q entry fuel = some (Except.ok s) ∧
      coarseFwdOut001 q s fuel = some (Except.ok e) ∧
      fineFwdWhileTrue001 q e fuel = some (Except.ok r) ∧ per = ⟨s, r⟩) := by
  rw [findCurrentOrNextSwathiPeriod001] at h
  cases hq : q ref with
  | error e => rw [hq] at h; simp at h
  | ok v =>
    rw [hq] at h
    cases v with
    | true =>
      left
      refine ⟨rfl, ?_⟩
      obtain ⟨b, hb, h⟩ := exBind_ok _ _ _ h
      obtain ⟨s, hs, h⟩ := exBind_ok _ _ _ h
      obtain ⟨e, he, h⟩ := exBind_ok _ _ _ h
      obtain ⟨r, hr, h⟩ := exBind_ok _ _ _ h
      simp only [Option.some.injEq, Except.ok.injEq] at h
      exact ⟨b, s, e, r, hb, hs, he, hr, h.symm⟩
    | false =>
      right
      refine ⟨rfl, ?_⟩
      obtain ⟨entry, hentry, h⟩ := exBind_ok _ _ _ h
      obtain ⟨s, hs, h⟩ := exBind_ok _ _ _ h
      obtain ⟨e, he, h⟩ := exBind_ok _ _ _ h
      obtain ⟨r, hr, h⟩ := exBind_ok _ _ _ h
      simp only [Option.some.injEq, Except.ok.injEq] at h
      exact ⟨entry, s, e, r, hentry, hs, he, hr, h.symm⟩

/-! ## Normalization facts for the longitude model -/

/-- The JavaScript remainder by 360 lies strictly between -360 and 360. -/
theorem jsMod_360_bounds (x : ℝ) : -360 < jsMod x 360 ∧ jsMod x 360 < 360 := by
  rw [jsMod, jsTrunc]
  by_cases h : 0 ≤ x / 360
  · rw [if_pos h]
    have h1 : (⌊x / 360⌋ : ℝ) ≤ x / 360 := Int.floor_le _
    have h2 : x / 360 < (⌊x / 360⌋ : ℝ) + 1 := Int.lt_floor_add_one _
    constructor <;> nlinarith [h1, h2]
  · rw [if_neg h]
    have h1 : (⌊-(x / 360)⌋ : ℝ) ≤ -(x / 360) := Int.floor_le _
    have h2 : -(x / 360) < (⌊-(x / 360)⌋ : ℝ) + 1 := Int.lt_floor_add_one _
    constructor <;> nlinarith [h1, h2]

/-- normPos of a remainder by 360: in [0, 360). -/
theorem normPos_jsMod_mem (x : ℝ) :
    0 ≤ normPos (jsMod x 360) ∧ normPos (jsMod x 360) < 360 := by
  obtain ⟨h1, h2⟩ := jsMod_360_bounds x
  rw [normPos]
  by_cases h : jsMod x 360 < 0
  · rw [if_pos h]
    constructor <;> linarith
  · rw [if_neg h]
    constructor <;> linarith

/-- The tropical longitude of part_000 is always normalized to [0, 360),
whatever the values of the trigonometric series. -/
theorem tropicalLongitude_mem (t : Int) :
    0 ≤ tropicalLongitude t ∧ tropicalLongitude t < 360 :=
  normPos_jsMod_mem _

/-- The two sequential corrections normalize exactly the values in
[-360, 720). -/
theorem normDeg_mem (v : ℝ) (h1 : -360 ≤ v) (h2 : v < 720) :
    0 ≤ normDeg v ∧ normDeg v < 360 := by
  rw [normDeg]
  by_cases hneg : v < 0
  · rw [if_pos hneg]
    have : ¬ (360 : ℝ) ≤ v + 360 := by linarith
    rw [if_neg this]
    constructor <;> linarith
  · rw [if_neg hneg]
    by_cases hge : (360 : ℝ) ≤ v
    · rw [if_pos hge]
      constructor <;> linarith
    · rw [if_neg hge]
      constructor <;> linarith

/-- Below -360 the corrections are insufficient: the result stays
negative. -/
theorem normDeg_stays_neg (v : ℝ) (h : v < -360) : normDeg v < 0 := by
  rw [normDeg]
  rw [if_pos (by linarith : v < 0)]
  rw [if_neg (by linarith : ¬ (360 : ℝ) ≤ v + 360)]
  linarith

/-- fineFwdIn entered on an out-of-band probe returns an in-band probe
whose fine predecessor is out of band. -/
theorem fineFwdIn_boundary (p : Int → Bool) (fuel : Nat) (x s : Int)
    (h : fineFwdIn p x fuel = some s) (hx : p x = false) :
    p s = true ∧ p (s - fineStep) = false := by
  obtain ⟨hs, k, hk, hall⟩ := fineFwdIn_spec p fuel x s h
  refine ⟨hs, ?_⟩
  have hk1 : 1 ≤ k := by
    rcases Nat.eq_zero_or_pos k with rfl | h1
    · simp only [Nat.cast_zero, zero_mul, add_zero] at hk
      rw [hk] at hs
      rw [hs] at hx
      simp at hx
    · exact h1
  have := hall (k - 1) (by omega)
  have harg : x + ((k - 1 : ℕ) : Int) * fineStep = s - fineStep := by
    simp only [fineStep] at hk ⊢
    omega
  rw [harg] at this
  exact this

/-- fineFwdIn001 entered on an out-of-band probe returns an in-band probe
whose fine predecessor is out of band. -/
theorem fineFwdIn001_boundary (q : Int → Except SunCalcError Bool) (fuel : Nat)
    (x s : Int) (h : fineFwdIn001 q x fuel = some (Except.ok s))
    (hx : q x = Except.ok false) :
    q s = Except.ok true ∧ q (s - fineStep) = Except.ok false := by
  obtain ⟨hs, k, hk, hall⟩ := fineFwdIn001_spec q fuel x s h
  refine ⟨hs, ?_⟩
  have hk1 : 1 ≤ k := by
    rcases Nat.eq_zero_or_pos k with rfl | h1
    · simp only [Nat.cast_zero, zero_mul, add_zero] at hk
      rw [hk] at hs
      rw [hs] at hx
      simp at hx
    · exact h1
  have := hall (k - 1) (by omega)
  have harg : x + ((k - 1 : ℕ) : Int) * fineStep = s - fineStep := by
    simp only [fineStep] at hk ⊢
    omega
  rw [harg] at this
  exact this

/-! ## The claims -/

/-- Claim C10: the ayanamsha satisfies
A(t) = 23.85575 + years(t) * (50.29/3600) with years(t) the elapsed
milliseconds since 2000-01-01T12:00:00 UTC divided by 86400000 * 365.25,
and the value at the epoch itself is exactly 23.85575. -/
theorem ayanamsha_formula_and_epoch :
    (∀ t : Int, getLahiriAyanamsha t
      = 23.85575 + ((t : ℚ) - 946728000000) / (86400000 * 365.25) * (50.29 / 3600)) ∧
    getLahiriAyanamsha J2000_MS = 23.85575 := by
  constructor
  · intro t
    rw [getLahiriAyanamsha, J2000_MS]
    norm_num
  · rw [getLahiriAyanamsha]
    norm_num

/-- Claim C7: the band predicate holds exactly for longitudes in
[14 * (360/27), 15 * (360/27)), the lower bound inclusive and the upper
bound exclusive; in particular 186.667 is in band and 200.0 is not. -/
theorem isSwathi_characterization :
    (∀ l : ℝ, isSwathi l ↔ 14 * (360 / 27) ≤ l ∧ l < 15 * (360 / 27)) ∧
    isSwathi 186.667 ∧ isSwathi 200 = False := by
  refine ⟨?_, ?_, ?_⟩
  · intro l
    rw [isSwathi, SWATHI_START_DEGREES, SWATHI_END_DEGREES, NAKSHATRA_SPAN_DEGREES]
    norm_num
  · rw [isSwathi, SWATHI_START_DEGREES, SWATHI_END_DEGREES, NAKSHATRA_SPAN_DEGREES]
    norm_num
  · refine eq_false ?_
    rw [isSwathi, SWATHI_START_DEGREES, SWATHI_END_DEGREES, NAKSHATRA_SPAN_DEGREES]
    norm_num

/-! ### Purity of the locators and part_001's mutable-state dependence

Single-step unfolding lemmas for the part_001 scans, used to evaluate a
concrete run against a stub SunCalc library (the probes are not
decidable, so the run is computed by rewriting). -/

/-- exBind of a finished successful scan. -/
theorem exBind_some_ok {α : Type} (v : Int)
    (k : Int → Option (Except SunCalcError α)) :
    exBind (some (Except.ok v)) k = k v := rfl

/-- coarseBackOut001, one in-band step. -/
theorem coarseBackOut001_step (q : Int → Except SunCalcError Bool) (x : Int)
    (n : Nat) (h : q x = Except.ok true) :
    coarseBackOut001 q x (n + 1) = coarseBackOut001 q (x - coarseStep001) n := by
  rw [coarseBackOut001, h]

/-- coarseBackOut001, exit on an out-of-band probe. -/
theorem coarseBackOut001_stop (q : Int → Except SunCalcError Bool) (x : Int)
    (n : Nat) (h : q x = Except.ok false) :
    coarseBackOut001 q x (n + 1) = some (Except.ok x) := by
  rw [coarseBackOut001, h]

/-- fineFwdIn001, one out-of-band step. -/
theorem fineFwdIn001_step (q : Int → Except SunCalcError Bool) (x : Int)
    (n : Nat) (h : q x = Except.ok false) :
    fineFwdIn001 q x (n + 1) = fineFwdIn001 q (x + fineStep) n := by
  rw [fineFwdIn001, h]

/-- fineFwdIn001, exit on an in-band probe. -/
theorem fineFwdIn001_stop (q : Int → Except SunCalcError Bool) (x : Int)
    (n : Nat) (h : q x = Except.ok true) :
    fineFwdIn001 q x (n + 1) = some (Except.ok x) := by
  rw [fineFwdIn001, h]

/-- coarseFwdOut001, one in-band step. -/
theorem coarseFwdOut001_step (q : Int → Except SunCalcError Bool) (x : Int)
    (n : Nat) (h : q x = Except.ok true) :
    coarseFwdOut001 q x (n + 1) = coarseFwdOut001 q (x + coarseStep001) n := by
  rw [coarseFwdOut001, h]

/-- coarseFwdOut001, exit on an out-of-band probe. -/
theorem coarseFwdOut001_stop (q : Int → Except SunCalcError Bool) (x : Int)
    (n : Nat) (h : q x = Except.ok false) :
    coarseFwdOut001 q x (n + 1) = some (Except.ok x) := by
  rw [coarseFwdOut001, h]

/-- fineFwdWhileTrue001, exit on an out-of-band probe. -/
theorem fineFwdWhileTrue001_stop (q : Int → Except SunCalcError Bool) (x : Int)
    (n : Nat) (h : q x = Except.ok false) :
    fineFwdWhileTrue001 q x (n + 1) = some (Except.ok x) := by
  rw [fineFwdWhileTrue001, h]

/-- getLunarSiderealLongitude with the library loaded. -/
theorem getLunarSiderealLongitude_some (f : Int → ℝ) (t : Int) :
    getLunarSiderealLongitude (some f) t
      = Except.ok (normPos (f t * (180 / Real.pi)
          - ((getLahiriAyanamsha t : ℚ) : ℝ))) := rfl

/-- The degree-radian round trip of part_001 cancels exactly. -/
theorem toRad_cancel (d : ℝ) : toRad d * (180 / Real.pi) = d := by
  rw [toRad]
  field_simp

/-- The ayanamsha within an hour of the Unix epoch lies between 23 and 24
degrees. -/
theorem aya_bounds_near_zero (t : Int) (h1 : -3600000 ≤ t) (h2 : t ≤ 3600000) :
    23 ≤ getLahiriAyanamsha t ∧ getLahiriAyanamsha t ≤ 24 := by
  have ht1 : (-3600000 : ℚ) ≤ (t : ℚ) := by exact_mod_cast h1
  have ht2 : ((t : ℚ)) ≤ 3600000 := by exact_mod_cast h2
  rw [getLahiriAyanamsha, J2000_MS]
  constructor
  · nlinarith
  · nlinarith

/-- A stand-in for the external SunCalc library's getMoonPosition
longitude: radians; after conversion and ayanamsha subtraction the
longitude is in band exactly on the window [-3540000, 60000) ms. -/
noncomputable def sunCalcStub (t : Int) : ℝ :=
  toRad (if -3540000 ≤ t ∧ t < 60000 then 215 else 100)

/-- The stub probe is in band on the window (near the epoch). -/
theorem stubProbe_true (t : Int) (hw : -3540000 ≤ t ∧ t < 60000)
    (h1 : -3600000 ≤ t) (h2 : t ≤ 3600000) :
    swathiProbe001 (some sunCalcStub) t = Except.ok true := by
  obtain ⟨ha1, ha2⟩ := aya_bounds_near_zero t h1 h2
  have ha1R : (23 : ℝ) ≤ ((getLahiriAyanamsha t : ℚ) : ℝ) := by exact_mod_cast ha1
  have ha2R : ((getLahiriAyanamsha t : ℚ) : ℝ) ≤ 24 := by exact_mod_cast ha2
  have hband : isSwathi (normPos (sunCalcStub t * (180 / Real.pi)
      - ((getLahiriAyanamsha t : ℚ) : ℝ))) := by
    rw [sunCalcStub, if_pos hw, toRad_cancel]
    have hpos : ¬ ((215 : ℝ) - ((getLahiriAyanamsha t : ℚ) : ℝ) < 0) := by
      push_neg
      linarith
    rw [normPos, if_neg hpos, isSwathi, SWATHI_START_DEGREES, SWATHI_END_DEGREES,
      NAKSHATRA_SPAN_DEGREES]
    constructor
    · nlinarith
    · nlinarith
  rw [swathiProbe001, getLunarSiderealLongitude_some]
  exact congrArg Except.ok (@decide_eq_true _ (Classical.propDecidable _) hband)

/-- The stub probe is out of band off the window (near the epoch). -/
theorem stubProbe_false (t : Int) (hw : ¬ (-3540000 ≤ t ∧ t < 60000))
    (h1 : -3600000 ≤ t) (h2 : t ≤ 3600000) :
    swathiProbe001 (some sunCalcStub) t = Except.ok false := by
  obtain ⟨ha1, ha2⟩ := aya_bounds_near_zero t h1 h2
  have ha1R : (23 : ℝ) ≤ ((getLahiriAyanamsha t : ℚ) : ℝ) := by exact_mod_cast ha1
  have ha2R : ((getLahiriAyanamsha t : ℚ) : ℝ) ≤ 24 := by exact_mod_cast ha2
  have hband : ¬ isSwathi (normPos (sunCalcStub t * (180 / Real.pi)
      - ((getLahiriAyanamsha t : ℚ) : ℝ))) := by
    rw [sunCalcStub, if_neg hw, toRad_cancel]
    have hpos : ¬ ((100 : ℝ) - ((getLahiriAyanamsha t : ℚ) : ℝ) < 0) := by
      push_neg
      linarith
    rw [normPos, if_neg hpos, isSwathi, SWATHI_START_DEGREES, SWATHI_END_DEGREES,
      NAKSHATRA_SPAN_DEGREES]
    intro hcontra
    obtain ⟨hlow, -⟩ := hcontra
    nlinarith
  rw [swathiProbe001, getLunarSiderealLongitude_some]
  exact congrArg Except.ok (@decide_eq_false _ (Classical.propDecidable _) hband)

/-- The part_001 locator run against the loaded stub library: a complete
mode-A run returning a period. -/
theorem locate001Env_stub_run :
    findCurrentOrNextSwathiPeriod001Env (some sunCalcStub) 0 10
      = some (Except.ok ⟨-3540000, 3600000⟩) := by
  have hp0 : swathiProbe001 (some sunCalcStub) 0 = Except.ok true :=
    stubProbe_true 0 (by norm_num) (by norm_num) (by norm_num)
  have hpb : swathiProbe001 (some sunCalcStub) (-3600000) = Except.ok false :=
    stubProbe_false (-3600000) (by norm_num) (by norm_num) (by norm_num)
  have hps : swathiProbe001 (some sunCalcStub) (-3540000) = Except.ok true :=
    stubProbe_true (-3540000) (by norm_num) (by norm_num) (by norm_num)
  have hpe : swathiProbe001 (some sunCalcStub) 3600000 = Except.ok false :=
    stubProbe_false 3600000 (by norm_num) (by norm_num) (by norm_num)
  have hb : coarseBackOut001 (swathiProbe001 (some sunCalcStub)) 0 10
      = some (Except.ok (-3600000)) := by
    rw [coarseBackOut001_step _ _ _ hp0,
      show (0 : Int) - coarseStep001 = -3600000 from by norm_num [coarseStep001],
      coarseBackOut001_stop _ _ _ hpb]
  have hs : fineFwdIn001 (swathiProbe001 (some sunCalcStub)) (-3600000) 10
      = some (Except.ok (-3540000)) := by
    rw [fineFwdIn001_step _ _ _ hpb,
      show (-3600000 : Int) + fineStep = -3540000 from by norm_num [fineStep],
      fineFwdIn001_stop _ _ _ hps]
  have he : coarseFwdOut001 (swathiProbe001 (some sunCalcStub)) 0 10
      = some (Except.ok 3600000) := by
    rw [coarseFwdOut001_step _ _ _ hp0,
      show (0 : Int) + coarseStep001 = 3600000 from by norm_num [coarseStep001],
      coarseFwdOut001_stop _ _ _ hpe]
  have hr : fineFwdWhileTrue001 (swathiProbe001 (some sunCalcStub)) 3600000 10
      = some (Except.ok 3600000) := fineFwdWhileTrue001_stop _ _ _ hpe
  rw [findCurrentOrNextSwathiPeriod001Env, findCurrentOrNextSwathiPeriod001, hp0]
  dsimp only
  rw [hb, exBind_some_ok, hs, exBind_some_ok, he, exBind_some_ok, hr, exBind_some_ok]

/-- Claim C8 counterexample: two invocations of part_001's locator with
the identical reference instant 0 and identical fuel, under the two states
of the mutable window.SunCalc global (absent versus the loaded stub
library), return different completed results: the immediate SunCalc error
versus a located period.  The probes read mutable state, so the locator is
not a function of the reference instant alone. -/
theorem locate001_state_counterexample :
    findCurrentOrNextSwathiPeriod001Env none 0 10
      = some (Except.error SunCalcError.sunCalcNotLoaded) ∧
    findCurrentOrNextSwathiPeriod001Env (some sunCalcStub) 0 10
      = some (Except.ok ⟨-3540000, 3600000⟩) ∧
    (some (Except.error SunCalcError.sunCalcNotLoaded)
        : Option (Except SunCalcError NakshatraPeriod))
      ≠ some (Except.ok ⟨-3540000, 3600000⟩) := by
  refine ⟨rfl, locate001Env_stub_run, by simp⟩

/-- Claim C8 amended: part_000's locator is a pure, deterministic function
of its reference instant — independent of the ambient wall clock, with
repeated invocations bit-identical.  part_001's locator is deterministic
only as a function of the reference instant AND the state of the mutable
window.SunCalc global its probes read: with that state fixed it is
likewise clock-independent and repeatable, but two calls with an identical
reference instant under different states of the global can return
different results. -/
theorem locate_pure_deterministic :
    (∀ (p : Int → Bool) (now₁ now₂ startDate : Int) (fuel : Nat),
      findCurrentOrNextSwathiPeriodAt p now₁ startDate fuel
        = findCurrentOrNextSwathiPeriodAt p now₂ startDate fuel) ∧
    (∀ (p : Int → Bool) (startDate : Int) (fuel : Nat),
      findCurrentOrNextSwathiPeriod000 p startDate fuel
        = findCurrentOrNextSwathiPeriod000 p startDate fuel) ∧
    (∀ (env : SunCalcState) (now₁ now₂ startDate : Int) (fuel : Nat),
      findCurrentOrNextSwathiPeriod001At env now₁ startDate fuel
        = findCurrentOrNextSwathiPeriod001At env now₂ startDate fuel) ∧
    (∀ (env : SunCalcState) (startDate : Int) (fuel : Nat),
      findCurrentOrNextSwathiPeriod001Env env startDate fuel
        = findCurrentOrNextSwathiPeriod001Env env startDate fuel) :=
  ⟨fun _ _ _ _ _ => rfl, fun _ _ _ => rfl, fun _ _ _ _ _ => rfl, fun _ _ _ => rfl⟩

/-- Claim C2 counterexample: at the Date-representable instant
t = 4000000000000000 ms (about the year 128753; JavaScript Date accepts up
to 8.64e15 ms), the ayanamsha exceeds 720 degrees, so the two conditional
corrections cannot bring tropical - ayanamsha back into range and
getMoonSiderealLongitude returns a negative value, outside [0, 360). -/
theorem siderealLongitude_negative_far_future :
    getMoonSiderealLongitude 4000000000000000 < 0 := by
  have haya : (720 : ℚ) ≤ getLahiriAyanamsha 4000000000000000 := by
    rw [getLahiriAyanamsha, J2000_MS]
    norm_num
  have hayaR : (720 : ℝ) ≤ ((getLahiriAyanamsha 4000000000000000 : ℚ) : ℝ) := by
    exact_mod_cast haya
  have htrop := tropicalLongitude_mem 4000000000000000
  rw [getMoonSiderealLongitude]
  apply normDeg_stays_neg
  rw [siderealRaw]
  linarith [htrop.2]

/-- Claim C2 amended: for every instant at which the ayanamsha lies in
(-360, 360] degrees — which holds for all realistic calendar instants,
roughly within 24000 years of J2000 — the sidereal longitude returned by
getMoonSiderealLongitude lies in [0, 360). -/
theorem siderealLongitude_mem (t : Int)
    (h1 : -360 < getLahiriAyanamsha t) (h2 : getLahiriAyanamsha t ≤ 360) :
    0 ≤ getMoonSiderealLongitude t ∧ getMoonSiderealLongitude t < 360 := by
  have h1R : (-360 : ℝ) < ((getLahiriAyanamsha t : ℚ) : ℝ) := by exact_mod_cast h1
  have h2R : ((getLahiriAyanamsha t : ℚ) : ℝ) ≤ 360 := by exact_mod_cast h2
  have htrop := tropicalLongitude_mem t
  rw [getMoonSiderealLongitude]
  apply normDeg_mem
  · rw [siderealRaw]
    linarith [htrop.1]
  · rw [siderealRaw]
    linarith [htrop.2]

/-- Claim C2 witness: at the J2000 epoch the ayanamsha is 23.85575, inside
(-360, 360], so the longitude is normalized. -/
theorem siderealLongitude_mem_witness :
    (-360 < getLahiriAyanamsha J2000_MS ∧ getLahiriAyanamsha J2000_MS ≤ 360) ∧
    (0 ≤ getMoonSiderealLongitude J2000_MS ∧
      getMoonSiderealLongitude J2000_MS < 360) := by
  have h1 : -360 < getLahiriAyanamsha J2000_MS := by
    rw [getLahiriAyanamsha]
    norm_num
  have h2 : getLahiriAyanamsha J2000_MS ≤ 360 := by
    rw [getLahiriAyanamsha]
    norm_num
  exact ⟨⟨h1, h2⟩, siderealLongitude_mem J2000_MS h1 h2⟩

/-- Claim C4: every successful locate run, in either implementation
variant and whatever the band probe, returns a period with
start ≤ end. -/
theorem locate_start_le_end :
    (∀ (p : Int → Bool) (ref : Int) (fuel : Nat) (per : NakshatraPeriod),
      findCurrentOrNextSwathiPeriod000 p ref fuel = some (Except.ok per) →
      per.start ≤ per.endTime) ∧
    (∀ (q : Int → Except SunCalcError Bool) (ref : Int) (fuel : Nat)
      (per : NakshatraPeriod),
      findCurrentOrNextSwathiPeriod001 q ref fuel = some (Except.ok per) →
      per.start ≤ per.endTime) := by
  constructor
  · intro p ref fuel per h
    rcases locate000_ok_elim p ref fuel per h with
      ⟨hp, b, s, e, x, hb, hs, he, hx, hper⟩ | ⟨hp, entry, s, e, x, hentry, hs, he, hx, hper⟩
    · -- Mode A
      obtain ⟨-, J, hJ, -⟩ := coarseBackOut_spec p fuel ref b hb
      have hsref : s ≤ ref := by
        refine fineFwdIn_le p fuel b s ref hs hp ⟨30 * J, ?_⟩
        simp only [fineStep, coarseStep000] at hJ ⊢
        push_cast
        omega
      obtain ⟨-, m, hm, -⟩ := coarseFwdOut_spec p fuel ref e he
      have hrefx : ref ≤ x := by
        refine fineBackIn_ge p fuel e x ref hx hp ⟨30 * m, ?_⟩
        simp only [fineStep, coarseStep000] at hm ⊢
        push_cast
        omega
      rw [hper]
      simp only [fineStep]
      omega
    · -- Mode B
      obtain ⟨hentryT, -, -, -⟩ := coarseFwdEntry_spec_ok p ref fuel ref entry hentry
      have hsT : p s = true := fineBackRefine_inv p fuel entry s hentryT hs
      obtain ⟨-, m, hm, -⟩ := coarseFwdOut_spec p fuel s e he
      have hsx : s ≤ x := by
        refine fineBackIn_ge p fuel e x s hx hsT ⟨30 * m, ?_⟩
        simp only [fineStep, coarseStep000] at hm ⊢
        push_cast
        omega
      rw [hper]
      simp only [fineStep]
      omega
  · intro q ref fuel per h
    rcases locate001_ok_elim q ref fuel per h with
      ⟨hq, b, s, e, r, hb, hs, he, hr, hper⟩ | ⟨hq, entry, s, e, r, hentry, hs, he, hr, hper⟩
    · -- Mode A
      obtain ⟨-, J, hJ, -⟩ := coarseBackOut001_spec q fuel ref b hb
      have hsref : s ≤ ref := by
        refine fineFwdIn001_le q fuel b s ref hs hq ⟨60 * J, ?_⟩
        simp only [fineStep, coarseStep001] at hJ ⊢
        push_cast
        omega
      obtain ⟨heF, m, hm, -⟩ := coarseFwdOut001_spec q fuel ref e he
      have hre : r = e := fineFwdWhileTrue001_stay q fuel e r heF hr
      rw [hper, hre]
      show s ≤ e
      simp only [coarseStep001] at hm
      omega
    · -- Mode B
      have hentryT : q entry = Except.ok true := coarseFwdIn001_ok q fuel ref entry hentry
      have hsT : q s = Except.ok true := fineBackRefine001_inv q fuel entry s hentryT hs
      obtain ⟨heF, m, hm, -⟩ := coarseFwdOut001_spec q fuel s e he
      have hre : r = e := fineFwdWhileTrue001_stay q fuel e r heF hr
      rw [hper, hre]
      show s ≤ e
      simp only [coarseStep001] at hm
      omega

/-- Claim C4 witness: concrete successful runs of both variants. -/
def probeA : Int → Bool := fun t => decide (-1740000 ≤ t ∧ t < 1800000)

/-- Synthetic part_001 probe for concrete runs: in band on
[-3540000, 60000), never throwing. -/
def probeB : Int → Except SunCalcError Bool :=
  fun t => Except.ok (decide (-3540000 ≤ t ∧ t < 60000))

/-- Claim C4 witness: the part_000 run at reference 0 returns the period
(-1740000, 1800000) and the part_001 run returns (-3540000, 3600000); both
satisfy start ≤ end by the theorem. -/
theorem locate_start_le_end_witness :
    findCurrentOrNextSwathiPeriod000 probeA 0 40
      = some (Except.ok ⟨-1740000, 1800000⟩) ∧
    ((-1740000 : Int) ≤ 1800000) ∧
    findCurrentOrNextSwathiPeriod001 probeB 0 10
      = some (Except.ok ⟨-3540000, 3600000⟩) ∧
    ((-3540000 : Int) ≤ 3600000) := by
  refine ⟨by decide, ?_, by decide, ?_⟩
  · exact locate_start_le_end.1 probeA 0 40 ⟨-1740000, 1800000⟩ (by decide)
  · exact locate_start_le_end.2 probeB 0 10 ⟨-3540000, 3600000⟩ (by decide)

/-- Claim C5: in both variants and both modes, a successful run returns a
start that is in band while the instant one fine step (60 s) earlier is
out of band: the start is the band entry resolved to one-minute
resolution. -/
theorem locate_start_boundary :
    (∀ (p : Int → Bool) (ref : Int) (fuel : Nat) (per : NakshatraPeriod),
      findCurrentOrNextSwathiPeriod000 p ref fuel = some (Except.ok per) →
      p per.start = true ∧ p (per.start - fineStep) = false) ∧
    (∀ (q : Int → Except SunCalcError Bool) (ref : Int) (fuel : Nat)
      (per : NakshatraPeriod),
      findCurrentOrNextSwathiPeriod001 q ref fuel = some (Except.ok per) →
      q per.start = Except.ok true ∧ q (per.start - fineStep) = Except.ok false) := by
  constructor
  · intro p ref fuel per h
    rcases locate000_ok_elim p ref fuel per h with
      ⟨hp, b, s, e, x, hb, hs, he, hx, hper⟩ | ⟨hp, entry, s, e, x, hentry, hs, he, hx, hper⟩
    · -- Mode A: fineFwdIn from the first out-of-band coarse probe.
      obtain ⟨hbF, -, -, -⟩ := coarseBackOut_spec p fuel ref b hb
      have := fineFwdIn_boundary p fuel b s hs hbF
      rw [hper]
      exact this
    · -- Mode B: fineBackRefine exit condition.
      obtain ⟨hentryT, -, -, -⟩ := coarseFwdEntry_spec_ok p ref fuel ref entry hentry
      obtain ⟨hsF, -, -, -⟩ := fineBackRefine_spec p fuel entry s hs
      have hsT : p s = true := fineBackRefine_inv p fuel entry s hentryT hs
      rw [hper]
      exact ⟨hsT, hsF⟩
  · intro q ref fuel per h
    rcases locate001_ok_elim q ref fuel per h with
      ⟨hq, b, s, e, r, hb, hs, he, hr, hper⟩ | ⟨hq, entry, s, e, r, hentry, hs, he, hr, hper⟩
    · obtain ⟨hbF, -, -, -⟩ := coarseBackOut001_spec q fuel ref b hb
      have := fineFwdIn001_boundary q fuel b s hs hbF
      rw [hper]
      exact this
    · have hentryT : q entry = Except.ok true := coarseFwdIn001_ok q fuel ref entry hentry
      obtain ⟨hsF, -, -, -⟩ := fineBackRefine001_spec q fuel entry s hs
      have hsT : q s = Except.ok true := fineBackRefine001_inv q fuel entry s hentryT hs
      rw [hper]
      exact ⟨hsT, hsF⟩

/-- Claim C5 witness: the concrete runs of both variants; the returned
starts are in band and their fine predecessors are not. -/
theorem locate_start_boundary_witness :
    findCurrentOrNextSwathiPeriod000 probeA 0 40
      = some (Except.ok ⟨-1740000, 1800000⟩) ∧
    (probeA (-1740000) = true ∧ probeA (-1740000 - fineStep) = false) ∧
    findCurrentOrNextSwathiPeriod001 probeB 0 10
      = some (Except.ok ⟨-3540000, 3600000⟩) ∧
    (probeB (-3540000) = Except.ok true ∧
      probeB (-3540000 - fineStep) = Except.ok false) := by
  refine ⟨by decide, ?_, by decide, ?_⟩
  · exact locate_start_boundary.1 probeA 0 40 ⟨-1740000, 1800000⟩ (by decide)
  · exact locate_start_boundary.2 probeB 0 10 ⟨-3540000, 3600000⟩ (by decide)

/-- Claim C3 counterexample: a concrete successful part_001 run in which
the probe 60 s before the returned end is OUT of band — refuting, for the
part_001 locator, that the end is the last in-band fine instant plus one
fine increment.  (The end here is the first out-of-band one-hour coarse
probe: the source's end "refinement" loops have an inverted condition and
never execute.) -/
theorem locate001_end_counterexample :
    findCurrentOrNextSwathiPeriod001 probeB 0 10
      = some (Except.ok ⟨-3540000, 3600000⟩) ∧
    probeB (3600000 - fineStep) = Except.ok false := by
  exact ⟨by decide, by decide⟩

/-- Claim C3 amended: in part_000 the stated convention holds — the end is
in band 60 s before and out of band at the end itself, i.e. the first
out-of-band instant after the last in-band fine probe.  In part_001 only
the out-of-band half survives: the end is the first out-of-band coarse
probe, with no fine refinement and no +60 s adjustment. -/
theorem locate_end_boundary :
    (∀ (p : Int → Bool) (ref : Int) (fuel : Nat) (per : NakshatraPeriod),
      findCurrentOrNextSwathiPeriod000 p ref fuel = some (Except.ok per) →
      p (per.endTime - fineStep) = true ∧ p per.endTime = false) ∧
    (∀ (q : Int → Except SunCalcError Bool) (ref : Int) (fuel : Nat)
      (per : NakshatraPeriod),
      findCurrentOrNextSwathiPeriod001 q ref fuel = some (Except.ok per) →
      q per.endTime = Except.ok false) := by
  constructor
  · intro p ref fuel per h
    rcases locate000_ok_elim p ref fuel per h with
      ⟨hp, b, s, e, x, hb, hs, he, hx, hper⟩ | ⟨hp, entry, s, e, x, hentry, hs, he, hx, hper⟩
    · obtain ⟨hxT, hxF⟩ := endScan000_boundary p fuel ref e x he hx
      rw [hper]
      constructor
      · simpa using hxT
      · exact hxF
    · obtain ⟨hxT, hxF⟩ := endScan000_boundary p fuel s e x he hx
      rw [hper]
      constructor
      · simpa using hxT
      · exact hxF
  · intro q ref fuel per h
    rcases locate001_ok_elim q ref fuel per h with
      ⟨hq, b, s, e, r, hb, hs, he, hr, hper⟩ | ⟨hq, entry, s, e, r, hentry, hs, he, hr, hper⟩
    · obtain ⟨hrF, -⟩ := fineFwdWhileTrue001_spec q fuel e r hr
      rw [hper]
      exact hrF
    · obtain ⟨hrF, -⟩ := fineFwdWhileTrue001_spec q fuel e r hr
      rw [hper]
      exact hrF

/-- Claim C3 witness: the concrete part_000 run; its end 1800000 is out of
band and 60 s earlier is in band, and the part_001 run's end is out of
band. -/
theorem locate_end_boundary_witness :
    findCurrentOrNextSwathiPeriod000 probeA 0 40
      = some (Except.ok ⟨-1740000, 1800000⟩) ∧
    (probeA (1800000 - fineStep) = true ∧ probeA 1800000 = false) ∧
    probeB 3600000 = Except.ok false := by
  refine ⟨by decide, ?_, ?_⟩
  · exact locate_end_boundary.1 probeA 0 40 ⟨-1740000, 1800000⟩ (by decide)
  · exact locate_end_boundary.2 probeB 0 10 ⟨-3540000, 3600000⟩ (by decide)

/-- Helper for the C1 counterexample: part_001's unbounded mode-B coarse
scan never finishes over an everywhere-out-of-band probe, for any fuel. -/
theorem coarseFwdIn001_const_false (fuel : Nat) :
    ∀ x : Int, coarseFwdIn001 (fun _ => Except.ok false) x fuel = none := by
  induction fuel with
  | zero => intro x; rfl
  | succ n ih =>
    intro x
    rw [coarseFwdIn001]
    exact ih _

/-- Claim C1 counterexample: the part_001 locator fails with the
SunCalc-not-loaded error (not SearchExhausted) when the library is absent,
and over a probe that is never in band it runs past the 30-day horizon
(100000 one-hour coarse steps of fuel, over 11 years) without ever raising
SearchExhausted — its forward coarse scan is unbounded. -/
theorem locate001_error_counterexample :
    findCurrentOrNextSwathiPeriod001
        (fun _ => Except.error SunCalcError.sunCalcNotLoaded) 0 5
      = some (Except.error SunCalcError.sunCalcNotLoaded) ∧
    findCurrentOrNextSwathiPeriod001 (fun _ => Except.ok false) 0 100000 = none := by
  constructor
  · rfl
  · rw [findCurrentOrNextSwathiPeriod001]
    simp [exBind, coarseFwdIn001_const_false]

/-- Claim C1 amended: in part_000 the claim holds as stated — the only
possible error is SearchExhausted, raised exactly when the mode-B forward
coarse scan finds every probe out of band through index 1440 (more than 30
days past the reference); in part_001 the locator never raises
SearchExhausted (its scan is unbounded) and an error can only be the
SunCalc-not-loaded exception propagated from the longitude function. -/
theorem locate_error_characterization :
    (∀ (p : Int → Bool) (ref : Int) (fuel : Nat) (e : SearchError),
      findCurrentOrNextSwathiPeriod000 p ref fuel = some (Except.error e) →
      e = SearchError.searchExhausted ∧
        ∀ j : ℕ, j ≤ 1440 → p (ref + j * coarseStep000) = false) ∧
    (∀ (p : Int → Bool) (ref : Int) (fuel : Nat) (r : Except SearchError NakshatraPeriod),
      (∀ j : ℕ, j ≤ 1440 → p (ref + j * coarseStep000) = false) →
      findCurrentOrNextSwathiPeriod000 p ref fuel = some r →
      r = Except.error SearchError.searchExhausted) ∧
    (∀ (q : Int → Except SunCalcError Bool) (ref : Int) (fuel : Nat)
      (e : SunCalcError),
      findCurrentOrNextSwathiPeriod001 q ref fuel = some (Except.error e) →
      e = SunCalcError.sunCalcNotLoaded) := by
  refine ⟨?_, ?_, ?_⟩
  · intro p ref fuel e h
    obtain ⟨hp, hentry⟩ := locate000_err_elim p ref fuel e h
    have hentry0 : coarseFwdEntry p ref (ref + (0 : ℕ) * coarseStep000) fuel
        = some (Except.error e) := by simpa using hentry
    have hall := coarseFwdEntry_err p ref fuel 0 e (by omega) hentry0
    exact ⟨by cases e; rfl, fun j hj => hall j (by omega) hj⟩
  · intro p ref fuel r hall h
    have hp : p ref = false := by simpa using hall 0 (by omega)
    rw [findCurrentOrNextSwathiPeriod000, if_neg (by simp [hp])] at h
    rw [Option.bind_eq_some] at h
    obtain ⟨r₀, hr₀, hmatch⟩ := h
    have hr₀0 : coarseFwdEntry p ref (ref + (0 : ℕ) * coarseStep000) fuel
        = some r₀ := by simpa using hr₀
    have := coarseFwdEntry_err_conv p ref fuel 0 r₀ (by omega)
      (fun j _ hj => hall j hj) hr₀0
    rw [this] at hmatch
    simpa using hmatch.symm
  · intro q ref fuel e h
    cases e
    rfl

set_option maxRecDepth 40000 in
/-- Claim C1 witness: a probe that is everywhere out of band makes the
part_000 locator raise SearchExhausted, and every coarse probe through
index 1440 is indeed out of band. -/
theorem locate_error_witness :
    findCurrentOrNextSwathiPeriod000 (fun _ => false) 0 1442
      = some (Except.error SearchError.searchExhausted) ∧
    (fun _ => false : Int → Bool) (0 + 1440 * coarseStep000) = false := by
  have h : findCurrentOrNextSwathiPeriod000 (fun _ => false) 0 1442
      = some (Except.error SearchError.searchExhausted) := by decide
  have := (locate_error_characterization.1 (fun _ => false) 0 1442
    SearchError.searchExhausted h).2 1440 (by omega)
  exact ⟨h, this⟩

/-- A mode-B run never moves backward: if the probe is out of band at the
reference instant, a successful part_000 run from that reference returns a
start at or after it (in fact at least one fine step after).  In
particular a rerun from a prior period's end + 1 ms cannot return a start
before that end as long as the signal is still out of band there: the
backward fine refinement can never cross the last out-of-band coarse
probe.  (Settling the monotone-coverage property for the program's own
trigonometric probe additionally needs that the real longitude is still
out of band one millisecond after a period's end, a quantitative property
of the periodic series that this development does not derive.) -/
theorem locate000_entry_not_backward (p : Int → Bool) (ref : Int)
    (fuel : Nat) (per : NakshatraPeriod) (hp : p ref = false)
    (h : findCurrentOrNextSwathiPeriod000 p ref fuel = some (Except.ok per)) :
    ref ≤ per.start := by
  rcases locate000_ok_elim p ref fuel per h with
    ⟨hpT, -, -, -, -, -, -, -, -, -⟩ | ⟨-, entry, s, e, x, hentry, hs, he, hx, hper⟩
  · rw [hp] at hpT
    simp at hpT
  · obtain ⟨hentryT, J, hJ, hall⟩ :=
      coarseFwdEntry_spec_ok p ref fuel ref entry hentry
    have hJ1 : 1 ≤ J := by
      rcases Nat.eq_zero_or_pos J with rfl | h1
      · simp only [Nat.cast_zero, zero_mul, add_zero] at hJ
        rw [hJ] at hentryT
        rw [hp] at hentryT
        simp at hentryT
      · exact h1
    have hbF : p (ref + ((J - 1 : ℕ) : Int) * coarseStep000) = false :=
      hall (J - 1) (by omega)
    have hge := fineBackRefine_ge p fuel entry s
      (ref + ((J - 1 : ℕ) : Int) * coarseStep000) hs hbF ?_
    · rw [hper]
      show ref ≤ s
      simp only [fineStep, coarseStep000] at hge
      have hJcast : (0 : Int) ≤ ((J - 1 : ℕ) : Int) := by positivity
      omega
    · refine ⟨30, ?_⟩
      simp only [fineStep, coarseStep000] at hJ ⊢
      omega

end SwathiTracker
